import Mathlib

/-!
Shallow embedding of the RF-Troy DSP core: `src/lib/dsp/windowing.ts`
(`WindowFunctions`), `src/lib/dsp/signal-generator.ts` (`SignalGenerator`),
`src/lib/dsp/fft.ts` (`FFTProcessor`), and the records of `src/types/rf.ts`.

Modelling conventions:
* JavaScript floating-point values are modelled as exact numbers.  Sample
  values, window coefficients, spectrum magnitudes and decibel values, on
  which the code applies `Math.sin`/`Math.cos`/`Math.sqrt`/`Math.log10`,
  live in `ℝ`.  Sample rates, frequencies, amplitudes and durations, on
  which the code only performs field arithmetic, are modelled in `ℚ` so
  that concrete instances are decidable.
* `Float32Array` buffers become `List`s; the JS idiom of reading a possibly
  out-of-range index (which yields `undefined`, or the 0 written by
  zero-padding) is modelled with `List.getD` at each use site.
* A `for (let k = 0; k < e; k++)` loop that writes slot `k` of a fresh
  array becomes `(List.range n).map`, where `n` is the exact number of
  iterations (for a real-valued bound `e`, the number of naturals below
  `e`).  A loop that accumulates becomes a `foldl` in iteration order.
* `throw` becomes `Except.error`; a JS call that lets an exception
  propagate is the corresponding `Except` propagation.
* `Date.now()` timestamps are informational only and omitted from the
  records; `console.log` side effects are dropped.
-/

open Real

noncomputable section

/-- The `TimeSignal` record of `types/rf.ts` (the informational `timestamp`
field is omitted). -/
structure TimeSignal where
  samples : List ℝ
  sampleRate : ℚ
  duration : ℚ

/-- The `SpectrumData` record of `types/rf.ts` (the informational
`timestamp` field is omitted). -/
structure SpectrumData where
  frequencies : List ℚ
  magnitudes : List ℝ
  binWidth : ℚ

/-- The `DSPConfig` record of `types/rf.ts`.  `fftSize` is a natural
number, matching the data model's "positive integer"; `windowType` is the
runtime string (the TS union type is the set `recognizedWindow` below);
`averagingCount` is carried but never read by the pipeline. -/
structure DSPConfig where
  fftSize : ℕ
  windowType : String
  averagingCount : ℤ

/-- The typed error surface of the DSP core.  `applyWindow`'s default
switch branch throws `new Error` whose message names the offending window
kind; the error is modelled as a constructor carrying that kind. -/
inductive DSPError where
  | UnsupportedWindowKind : String → DSPError
deriving DecidableEq

/-- The `ComplexNumber` helper interface of `fft.ts`. -/
@[ext]
structure ComplexNumber where
  real : ℝ
  imag : ℝ

/-- The window kinds recognized by the `switch` in
`WindowFunctions.applyWindow` (equivalently, the TS union type of
`DSPConfig.windowType`). -/
def recognizedWindow (windowType : String) : Prop :=
  windowType = "rectangular" ∨ windowType = "hanning" ∨ windowType = "hamming"

instance (windowType : String) : Decidable (recognizedWindow windowType) := by
  unfold recognizedWindow
  infer_instance

/-- `WindowFunctions.rectangular` of `windowing.ts`: every coefficient is
`1.0`. -/
def WindowFunctions.rectangular (length : ℕ) : List ℝ :=
  (List.range length).map (fun _ => 1.0)

/-- `WindowFunctions.hanning` of `windowing.ts`:
`window[i] = 0.5 * (1 - Math.cos(2 * Math.PI * i / (length - 1)))`.
The denominator is the JS number `length - 1`, hence real subtraction. -/
def WindowFunctions.hanning (length : ℕ) : List ℝ :=
  (List.range length).map (fun (i : ℕ) =>
    0.5 * (1 - Real.cos (2 * π * (i : ℝ) / ((length : ℝ) - 1))))

/-- `WindowFunctions.hamming` of `windowing.ts`:
`window[i] = 0.54 - 0.46 * Math.cos(2 * Math.PI * i / (length - 1))`. -/
def WindowFunctions.hamming (length : ℕ) : List ℝ :=
  (List.range length).map (fun (i : ℕ) =>
    0.54 - 0.46 * Real.cos (2 * π * (i : ℝ) / ((length : ℝ) - 1)))

/-- Models `Math.cos(num / den)` of IEEE arithmetic one level more
faithfully than `ℝ` alone: when `den = 0` the JS quotient is `NaN` (for
`num = 0`) or `±Infinity`, and `Math.cos` of any of those is `NaN`,
modelled as `none`; otherwise the result is the real cosine of the real
quotient.  Used to settle the `N = 1` window edge case, where the
`(length - 1)` denominator vanishes. -/
def cosOfQuotient (num den : ℝ) : Option ℝ :=
  if den = 0 then none else some (Real.cos (num / den))

/-- `WindowFunctions.hanning` with the JS `NaN` behaviour of the
`cos(2πi/(length-1))` subterm made explicit (`none` = `NaN`; the outer
`0.5 * (1 - _)` arithmetic maps `NaN` to `NaN`, i.e. `Option.map`). -/
def WindowFunctions.hanningJS (length : ℕ) : List (Option ℝ) :=
  (List.range length).map (fun (i : ℕ) =>
    (cosOfQuotient (2 * π * (i : ℝ)) ((length : ℝ) - 1)).map
      (fun c => 0.5 * (1 - c)))

/-- `WindowFunctions.hamming` with the JS `NaN` behaviour of the cosine
subterm made explicit, as in `WindowFunctions.hanningJS`. -/
def WindowFunctions.hammingJS (length : ℕ) : List (Option ℝ) :=
  (List.range length).map (fun (i : ℕ) =>
    (cosOfQuotient (2 * π * (i : ℝ)) ((length : ℝ) - 1)).map
      (fun c => 0.54 - 0.46 * c))

/-- The `switch (windowType)` of `WindowFunctions.applyWindow`: choose the
coefficient sequence, or throw for an unrecognized kind. -/
def WindowFunctions.selectWindow (windowType : String) (length : ℕ) :
    Except DSPError (List ℝ) :=
  if windowType = "rectangular" then .ok (WindowFunctions.rectangular length)
  else if windowType = "hanning" then .ok (WindowFunctions.hanning length)
  else if windowType = "hamming" then .ok (WindowFunctions.hamming length)
  else .error (DSPError.UnsupportedWindowKind windowType)

/-- `WindowFunctions.applyWindow` of `windowing.ts`: select the window for
the signal's length, then `windowedSignal[i] = signal[i] * window[i]` for
`i` below `signal.length`.  A thrown selection error propagates. -/
def WindowFunctions.applyWindow (signal : List ℝ) (windowType : String) :
    Except DSPError (List ℝ) :=
  (WindowFunctions.selectWindow windowType signal.length).map (fun window =>
    (List.range signal.length).map (fun (i : ℕ) => signal.getD i 0 * window.getD i 0))

/-- `SignalGenerator.createSineWave` of `signal-generator.ts`:
`numSamples = Math.floor(duration * sampleRate)` samples of
`amplitude * Math.sin(2 * Math.PI * frequency * time)` with
`time = i / sampleRate`. -/
def SignalGenerator.createSineWave (frequency amplitude duration sampleRate : ℚ) :
    TimeSignal :=
  { samples := (List.range (⌊duration * sampleRate⌋.toNat)).map (fun (i : ℕ) =>
      (amplitude : ℝ) *
        Real.sin (2 * π * (frequency : ℝ) * (((i : ℚ) / sampleRate : ℚ) : ℝ))),
    sampleRate := sampleRate,
    duration := duration }

/-- The per-component amplitude lookup of `SignalGenerator.createMultiTone`:
`const amp = amplitudes[freqIndex] || 1`.  Reading past the end of
`amplitudes` yields `undefined`, and both `undefined` and `0` are falsy, so
a missing entry and a present `0` both produce `1`. -/
def SignalGenerator.ampOf (amplitudes : List ℚ) (freqIndex : ℕ) : ℚ :=
  if amplitudes.getD freqIndex 0 = 0 then 1 else amplitudes.getD freqIndex 0

/-- `SignalGenerator.createMultiTone` of `signal-generator.ts`: for each
frequency index in order, add `amp * Math.sin(2 * Math.PI * freq * time)`
into every sample slot; per sample slot this is a fold over the frequency
indices in ascending order starting from the zero-initialized buffer. -/
def SignalGenerator.createMultiTone (frequencies amplitudes : List ℚ)
    (duration sampleRate : ℚ) : TimeSignal :=
  { samples := (List.range (⌊duration * sampleRate⌋.toNat)).map (fun (i : ℕ) =>
      (List.range frequencies.length).foldl (fun (acc : ℝ) (freqIndex : ℕ) =>
        acc + (SignalGenerator.ampOf amplitudes freqIndex : ℝ) *
          Real.sin (2 * π * (frequencies.getD freqIndex 0 : ℝ) *
            (((i : ℚ) / sampleRate : ℚ) : ℝ))) 0),
    sampleRate := sampleRate,
    duration := duration }

/-- `SignalGenerator.createWhiteNoise` of `signal-generator.ts`:
`amplitude * (2 * Math.random() - 1)` per sample.  The stream of
`Math.random()` draws (each in `[0, 1)`) is passed explicitly as
`randomSource`. -/
def SignalGenerator.createWhiteNoise (amplitude duration sampleRate : ℚ)
    (randomSource : ℕ → ℝ) : TimeSignal :=
  { samples := (List.range (⌊duration * sampleRate⌋.toNat)).map (fun (i : ℕ) =>
      (amplitude : ℝ) * (2 * randomSource i - 1)),
    sampleRate := sampleRate,
    duration := duration }

/-- The local `instantFreq` computation of `SignalGenerator.createChirp`:
`startFreq + (endFreq - startFreq) * (time / duration)`. -/
def instantFreq (startFreq endFreq duration time : ℚ) : ℚ :=
  startFreq + (endFreq - startFreq) * (time / duration)

/-- `SignalGenerator.createChirp` of `signal-generator.ts`: sample `i` is
`Math.sin(2 * Math.PI * instantFreq * time)` with `time = i / sampleRate`. -/
def SignalGenerator.createChirp (startFreq endFreq duration sampleRate : ℚ) :
    TimeSignal :=
  { samples := (List.range (⌊duration * sampleRate⌋.toNat)).map (fun (i : ℕ) =>
      Real.sin (2 * π *
        (instantFreq startFreq endFreq duration ((i : ℚ) / sampleRate) : ℝ) *
        (((i : ℚ) / sampleRate : ℚ) : ℝ))),
    sampleRate := sampleRate,
    duration := duration }

/-- The `FFTProcessor` class of `fft.ts`: holds its `DSPConfig`. -/
structure FFTProcessor where
  config : DSPConfig

/-- The `FFTProcessor` constructor: it stores the given config and performs
no validation of any kind. -/
def FFTProcessor.mk' (config : DSPConfig) : FFTProcessor := ⟨config⟩

/-- Number of iterations of the JS loop `for (let k = 0; k < N / 2; k++)`,
where `N / 2` is real division: the naturals strictly below `N / 2`, i.e.
`⌈N / 2⌉`. -/
def numBins (N : ℕ) : ℕ := (N + 1) / 2

/-- `FFTProcessor.extractChunk` of `fft.ts`:
`chunk[i] = i < samples.length ? samples[i] : 0` for `i < chunkSize`. -/
def FFTProcessor.extractChunk (samples : List ℝ) (chunkSize : ℕ) : List ℝ :=
  (List.range chunkSize).map (fun (i : ℕ) =>
    if i < samples.length then samples.getD i 0 else 0)

/-- `FFTProcessor.computeFFT` of `fft.ts`: for each `k` with `k < N / 2`
(real division), accumulate
`realSum += samples[n] * Math.cos(angle)` and
`imagSum += samples[n] * Math.sin(angle)` over `n < N` with
`angle = -2 * Math.PI * k * n / N` (the `angle` local is inlined; the
computation is pure). -/
def FFTProcessor.computeFFT (samples : List ℝ) : List ComplexNumber :=
  (List.range (numBins samples.length)).map (fun (k : ℕ) =>
    (List.range samples.length).foldl (fun (acc : ComplexNumber) (n : ℕ) =>
      { real := acc.real + samples.getD n 0 *
          Real.cos (-2 * π * (k : ℝ) * (n : ℝ) / (samples.length : ℝ)),
        imag := acc.imag + samples.getD n 0 *
          Real.sin (-2 * π * (k : ℝ) * (n : ℝ) / (samples.length : ℝ)) })
      ⟨0, 0⟩)

/-- `FFTProcessor.computeMagnitudes` of `fft.ts`:
`Math.sqrt(real * real + imag * imag)` per bin. -/
def FFTProcessor.computeMagnitudes (complexData : List ComplexNumber) : List ℝ :=
  complexData.map (fun c => Real.sqrt (c.real * c.real + c.imag * c.imag))

/-- `FFTProcessor.createFrequencyAxis` of `fft.ts`: a buffer of
`fftSize / 2` slots (a `Float32Array` length truncates, and a write at a
larger index is silently dropped), slot `i` holding
`i * sampleRate / fftSize`. -/
def FFTProcessor.createFrequencyAxis (fftSize : ℕ) (sampleRate : ℚ) : List ℚ :=
  (List.range (fftSize / 2)).map (fun (i : ℕ) => (i : ℚ) * sampleRate / (fftSize : ℚ))

/-- `FFTProcessor.convertToDecibels` of `fft.ts`:
`20 * Math.log10(Math.max(magnitudes[i], 1e-10))` per bin. -/
def FFTProcessor.convertToDecibels (magnitudes : List ℝ) : List ℝ :=
  magnitudes.map (fun m => 20 * Real.logb 10 (max m 1e-10))

/-- `FFTProcessor.processSignal` of `fft.ts`: extract the chunk, window it
(an `UnsupportedWindowKind` throw propagates to the caller unchanged), then
transform, take magnitudes, build the frequency axis, convert to decibels,
and assemble the `SpectrumData`. -/
def FFTProcessor.processSignal (self : FFTProcessor) (signal : TimeSignal) :
    Except DSPError SpectrumData :=
  (WindowFunctions.applyWindow
      (FFTProcessor.extractChunk signal.samples self.config.fftSize)
      self.config.windowType).map (fun windowedChunk =>
    { frequencies :=
        FFTProcessor.createFrequencyAxis self.config.fftSize signal.sampleRate,
      magnitudes :=
        FFTProcessor.convertToDecibels
          (FFTProcessor.computeMagnitudes (FFTProcessor.computeFFT windowedChunk)),
      binWidth := signal.sampleRate / (self.config.fftSize : ℚ) })

/-- The amplitude-matching rule exactly as the specification words it, for
comparison with `SignalGenerator.ampOf`: a pair is matched positionally and
only a missing amplitude defaults to `1.0` (a present amplitude, zero
included, is used as supplied). -/
def specAmpOf (amplitudes : List ℚ) (freqIndex : ℕ) : ℚ :=
  amplitudes.getD freqIndex 1

end

/-! Helper lemmas shared by the claim theorems. -/

theorem getD_map_range {α : Type} (f : ℕ → α) {n k : ℕ} (hk : k < n) (d : α) :
    ((List.range n).map f).getD k d = f k := by
  simp [List.getD_eq_getElem?_getD, List.getElem?_range hk]

theorem extractChunk_length (samples : List ℝ) (chunkSize : ℕ) :
    (FFTProcessor.extractChunk samples chunkSize).length = chunkSize := by
  simp [FFTProcessor.extractChunk]

/-- Claim C7: chunk extraction copies the first `fftSize` samples,
zero-pads on the right to exactly `fftSize` when the signal is shorter
(equivalently, it is the truncated signal followed by the needed zeros),
and its length is exactly `fftSize`.  The embedding is a total function,
reading the input only through `List.getD` below `samples.length`: nothing
is read out of bounds and no failure path exists for short signals. -/
theorem extractChunk_take_pad (samples : List ℝ) (chunkSize : ℕ) :
    FFTProcessor.extractChunk samples chunkSize =
      samples.take chunkSize ++ List.replicate (chunkSize - samples.length) 0
    ∧ (FFTProcessor.extractChunk samples chunkSize).length = chunkSize := by
  refine ⟨?_, extractChunk_length samples chunkSize⟩
  apply List.ext_getElem
  · simp [FFTProcessor.extractChunk]
    omega
  · intro i h₁ h₂
    have hi : i < chunkSize := by
      simpa [FFTProcessor.extractChunk] using h₁
    simp only [FFTProcessor.extractChunk, List.getElem_map, List.getElem_range]
    by_cases hs : i < samples.length
    · rw [List.getElem_append_left (by simpa using ⟨hi, hs⟩)]
      simp [hs, List.getD_eq_getElem?_getD, List.getElem?_eq_getElem hs]
    · rw [List.getElem_append_right (by simp; omega)]
      simp [hs]

/-- Claim C6 (code bug, failing input): for window length `1`, the
`(length - 1)` denominator of the Hanning and Hamming formulas is zero, so
the JS computation `cos(2π·0/0)` is `cos(NaN) = NaN` and the single
produced coefficient is `NaN` (`none` in the `NaN`-explicit model) — not
the defined finite coefficient the specification requires. -/
theorem hanning_hamming_length_one_nan :
    WindowFunctions.hanningJS 1 = [none] ∧ WindowFunctions.hammingJS 1 = [none] := by
  have hr : List.range 1 = [0] := rfl
  have hden : ((1 : ℕ) : ℝ) - 1 = 0 := by norm_num
  constructor
  · unfold WindowFunctions.hanningJS
    rw [hr]
    simp [cosOfQuotient, hden]
  · unfold WindowFunctions.hammingJS
    rw [hr]
    simp [cosOfQuotient, hden]

/-- Claim C5 (counterexample): constructing the engine from a `DSPConfig`
whose `fftSize` is `0` — non-positive, hence invalid per the claim —
succeeds and yields an engine carrying that `fftSize`, so an engine with an
invalid `fftSize` does exist and no failure occurs at construction time. -/
theorem mkProcessor_accepts_invalid_fftSize :
    (FFTProcessor.mk' ⟨0, "hanning", 0⟩).config.fftSize = 0 := rfl

/-- Claim C5 (amended): the `FFTProcessor` constructor performs no
validation: for every `DSPConfig` — a non-positive `fftSize` included — it
succeeds and stores the configuration unchanged; no `InvalidConfig` error
exists anywhere in the code. -/
theorem mkProcessor_no_validation (config : DSPConfig) :
    (FFTProcessor.mk' config).config = config := rfl

theorem getD_map_of_lt {α β : Type} (f : α → β) (l : List α) {k : ℕ}
    (hk : k < l.length) (d : β) (d' : α) :
    (l.map f).getD k d = f (l.getD k d') := by
  rw [List.getD_eq_getElem?_getD, List.getElem?_map, List.getElem?_eq_getElem hk,
    List.getD_eq_getElem?_getD, List.getElem?_eq_getElem hk]
  rfl

theorem foldl_add_eq_sum (f : ℕ → ℝ) :
    ∀ (n : ℕ) (init : ℝ),
      (List.range n).foldl (fun acc j => acc + f j) init
        = init + ∑ j in Finset.range n, f j := by
  intro n
  induction n with
  | zero => intro init; simp
  | succ n ih =>
    intro init
    rw [List.range_succ, List.foldl_append, ih]
    simp [Finset.sum_range_succ]
    ring

theorem foldl_complex_eq_sum (f g : ℕ → ℝ) :
    ∀ (n : ℕ) (init : ComplexNumber),
      (List.range n).foldl
          (fun acc j => ⟨acc.real + f j, acc.imag + g j⟩) init
        = ⟨init.real + ∑ j in Finset.range n, f j,
           init.imag + ∑ j in Finset.range n, g j⟩ := by
  intro n
  induction n with
  | zero => intro init; simp
  | succ n ih =>
    intro init
    rw [List.range_succ, List.foldl_append, ih]
    simp only [List.foldl_cons, List.foldl_nil]
    ext <;> simp [Finset.sum_range_succ] <;> ring

theorem computeFFT_length (x : List ℝ) :
    (FFTProcessor.computeFFT x).length = numBins x.length := by
  simp [FFTProcessor.computeFFT]

theorem computeMagnitudes_length (l : List ComplexNumber) :
    (FFTProcessor.computeMagnitudes l).length = l.length := by
  simp [FFTProcessor.computeMagnitudes]

theorem convertToDecibels_length (l : List ℝ) :
    (FFTProcessor.convertToDecibels l).length = l.length := by
  simp [FFTProcessor.convertToDecibels]

theorem computeFFT_getD (x : List ℝ) {k : ℕ} (hk : k < numBins x.length) :
    (FFTProcessor.computeFFT x).getD k ⟨0, 0⟩
      = ⟨∑ n in Finset.range x.length,
           x.getD n 0 * Real.cos (-2 * π * (k : ℝ) * (n : ℝ) / (x.length : ℝ)),
         ∑ n in Finset.range x.length,
           x.getD n 0 * Real.sin (-2 * π * (k : ℝ) * (n : ℝ) / (x.length : ℝ))⟩ := by
  unfold FFTProcessor.computeFFT
  rw [getD_map_range _ hk]
  rw [foldl_complex_eq_sum
    (fun n => x.getD n 0 * Real.cos (-2 * π * (k : ℝ) * (n : ℝ) / (x.length : ℝ)))
    (fun n => x.getD n 0 * Real.sin (-2 * π * (k : ℝ) * (n : ℝ) / (x.length : ℝ)))]
  simp

/-- Claim C2: for a windowed chunk `x` of length `N`, every retained bin
`k` (the naturals below `N / 2`, i.e. all of `[0, N/2)` for the even
`fftSize` of the pipeline) carries exactly the direct DFT sums
`real[k] = Σ x[n]·cos(−2πkn/N)` and `imag[k] = Σ x[n]·sin(−2πkn/N)`, the
magnitude is `sqrt(real² + imag²)`, and the decibel value is
`20·log10(max(magnitude, 1e-10))` with the floor constant exactly `1e-10`. -/
theorem computeFFT_dft_formulas (x : List ℝ) (k : ℕ) (hk : k < numBins x.length) :
    ((FFTProcessor.computeFFT x).getD k ⟨0, 0⟩).real
        = ∑ n in Finset.range x.length,
            x.getD n 0 * Real.cos (-2 * π * (k : ℝ) * (n : ℝ) / (x.length : ℝ))
    ∧ ((FFTProcessor.computeFFT x).getD k ⟨0, 0⟩).imag
        = ∑ n in Finset.range x.length,
            x.getD n 0 * Real.sin (-2 * π * (k : ℝ) * (n : ℝ) / (x.length : ℝ))
    ∧ (FFTProcessor.computeMagnitudes (FFTProcessor.computeFFT x)).getD k 0
        = Real.sqrt (((FFTProcessor.computeFFT x).getD k ⟨0, 0⟩).real ^ 2
            + ((FFTProcessor.computeFFT x).getD k ⟨0, 0⟩).imag ^ 2)
    ∧ (FFTProcessor.convertToDecibels
          (FFTProcessor.computeMagnitudes (FFTProcessor.computeFFT x))).getD k 0
        = 20 * Real.logb 10
            (max ((FFTProcessor.computeMagnitudes
              (FFTProcessor.computeFFT x)).getD k 0) 1e-10) := by
  have hkfft : k < (FFTProcessor.computeFFT x).length := by
    rw [computeFFT_length]; exact hk
  have hkmag : k < (FFTProcessor.computeMagnitudes (FFTProcessor.computeFFT x)).length := by
    rw [computeMagnitudes_length]; exact hkfft
  refine ⟨?_, ?_, ?_, ?_⟩
  · rw [computeFFT_getD x hk]
  · rw [computeFFT_getD x hk]
  · unfold FFTProcessor.computeMagnitudes
    rw [getD_map_of_lt _ _ hkfft 0 ⟨0, 0⟩]
    congr 1
    ring
  · unfold FFTProcessor.convertToDecibels
    rw [getD_map_of_lt _ _ hkmag 0 0]

theorem selectWindow_unknown (windowType : String) (n : ℕ)
    (h : ¬ recognizedWindow windowType) :
    WindowFunctions.selectWindow windowType n
      = .error (DSPError.UnsupportedWindowKind windowType) := by
  unfold recognizedWindow at h
  push_neg at h
  obtain ⟨h1, h2, h3⟩ := h
  unfold WindowFunctions.selectWindow
  rw [if_neg h1, if_neg h2, if_neg h3]

theorem applyWindow_unknown_eq (signal : List ℝ) (windowType : String)
    (h : ¬ recognizedWindow windowType) :
    WindowFunctions.applyWindow signal windowType
      = .error (DSPError.UnsupportedWindowKind windowType) := by
  unfold WindowFunctions.applyWindow
  rw [selectWindow_unknown _ _ h]
  rfl

theorem applyWindow_recognized (signal : List ℝ) (windowType : String)
    (h : recognizedWindow windowType) :
    ∃ w, WindowFunctions.applyWindow signal windowType = .ok w
      ∧ w.length = signal.length := by
  obtain ⟨cw, hcw⟩ : ∃ cw,
      WindowFunctions.selectWindow windowType signal.length = .ok cw := by
    rcases h with h | h | h <;> subst h <;> exact ⟨_, rfl⟩
  refine ⟨(List.range signal.length).map
    (fun (i : ℕ) => signal.getD i 0 * cw.getD i 0), ?_, ?_⟩
  · unfold WindowFunctions.applyWindow
    rw [hcw]
    rfl
  · simp

/-- Claim C4: for every signal chunk and every window kind outside
{rectangular, hanning, hamming}, `applyWindow` fails with the
`UnsupportedWindowKind` error naming that kind — no fallback to
rectangular, no partial output (the error carries no value) — and
`processSignal` on a config with that kind propagates exactly the same
failure to its caller. -/
theorem applyWindow_unsupported_kind (x : List ℝ) (cfg : DSPConfig)
    (sig : TimeSignal) (h : ¬ recognizedWindow cfg.windowType) :
    WindowFunctions.applyWindow x cfg.windowType
        = .error (DSPError.UnsupportedWindowKind cfg.windowType)
    ∧ FFTProcessor.processSignal ⟨cfg⟩ sig
        = .error (DSPError.UnsupportedWindowKind cfg.windowType) := by
  refine ⟨applyWindow_unknown_eq x _ h, ?_⟩
  unfold FFTProcessor.processSignal
  rw [applyWindow_unknown_eq _ _ h]
  rfl

/-- Claim C4 witness at the unrecognized kind "blackman". -/
theorem applyWindow_unsupported_kind_witness :
    WindowFunctions.applyWindow [] "blackman"
        = .error (DSPError.UnsupportedWindowKind "blackman")
    ∧ FFTProcessor.processSignal ⟨⟨8, "blackman", 0⟩⟩ ⟨[], 1, 0⟩
        = .error (DSPError.UnsupportedWindowKind "blackman") :=
  applyWindow_unsupported_kind [] ⟨8, "blackman", 0⟩ ⟨[], 1, 0⟩ (by decide)

/-- Claim C3: for every input signal (a zero-length signal and an all-zero
chunk included), `processSignal` with a recognized window kind succeeds and
every value of the decibel output is bounded below by the decibel value of
the `1e-10` floor, which is exactly `-200`.  In this real-valued model of
the IEEE arithmetic, the pipeline's only possible non-finite value is
`log10(0) = -Infinity`, and the bound shows the floor keeps every `log10`
argument at or above `1e-10 > 0`: no `NaN`, `-Infinity` or `+Infinity`
reaches the caller. -/
theorem processSignal_magnitudes_finite (cfg : DSPConfig) (sig : TimeSignal)
    (h : recognizedWindow cfg.windowType) :
    ∃ s, FFTProcessor.processSignal ⟨cfg⟩ sig = .ok s
      ∧ (∀ v ∈ s.magnitudes, 20 * Real.logb 10 1e-10 ≤ v)
      ∧ 20 * Real.logb 10 (1e-10 : ℝ) = -200 := by
  obtain ⟨w, hw, -⟩ := applyWindow_recognized
    (FFTProcessor.extractChunk sig.samples cfg.fftSize) cfg.windowType h
  have hps : FFTProcessor.processSignal ⟨cfg⟩ sig = .ok
      { frequencies := FFTProcessor.createFrequencyAxis cfg.fftSize sig.sampleRate,
        magnitudes := FFTProcessor.convertToDecibels
          (FFTProcessor.computeMagnitudes (FFTProcessor.computeFFT w)),
        binWidth := sig.sampleRate / (cfg.fftSize : ℚ) } := by
    unfold FFTProcessor.processSignal
    rw [hw]
    rfl
  refine ⟨_, hps, ?_, ?_⟩
  · intro v hv
    simp only [FFTProcessor.convertToDecibels, List.mem_map] at hv
    obtain ⟨m, -, rfl⟩ := hv
    have hmono : Real.logb 10 1e-10 ≤ Real.logb 10 (max m 1e-10) :=
      Real.logb_le_logb_of_le (by norm_num) (by norm_num) (le_max_right _ _)
    exact mul_le_mul_of_nonneg_left hmono (by norm_num)
  · have h10 : (1e-10 : ℝ) = (10 : ℝ) ^ ((-10 : ℤ) : ℝ) := by
      rw [Real.rpow_intCast]
      norm_num
    rw [h10, Real.logb_rpow (by norm_num) (by norm_num)]
    norm_num

/-- Claim C3 witness at a zero-length input signal. -/
theorem processSignal_magnitudes_finite_witness :
    ∃ s, FFTProcessor.processSignal ⟨⟨2, "hanning", 0⟩⟩ ⟨[], 2, 0⟩ = .ok s
      ∧ (∀ v ∈ s.magnitudes, 20 * Real.logb 10 1e-10 ≤ v)
      ∧ 20 * Real.logb 10 (1e-10 : ℝ) = -200 :=
  processSignal_magnitudes_finite ⟨2, "hanning", 0⟩ ⟨[], 2, 0⟩ (Or.inr (Or.inl rfl))

/-- Claim C1 (amended): for every `DSPConfig` whose `fftSize` is even and
at least 2 and whose `windowType` is recognized, and every `TimeSignal`
with positive `sampleRate`, `processSignal` succeeds with a spectrum whose
`frequencies` and `magnitudes` both have length `fftSize / 2`, with
`frequencies[0] = 0`, `frequencies[k] = k * sampleRate / fftSize` for every
bin, and the axis strictly increasing.  Evenness is the amendment the
counterexample forces: for an odd `fftSize` the transform keeps
`⌈fftSize/2⌉` bins while the frequency axis has `⌊fftSize/2⌋` entries. -/
theorem processSignal_spectrum_invariants (cfg : DSPConfig) (sig : TimeSignal)
    (hrec : recognizedWindow cfg.windowType) (hF2 : 2 ≤ cfg.fftSize)
    (hEven : 2 ∣ cfg.fftSize) (hr : 0 < sig.sampleRate) :
    ∃ s, FFTProcessor.processSignal ⟨cfg⟩ sig = .ok s
      ∧ s.frequencies.length = cfg.fftSize / 2
      ∧ s.magnitudes.length = cfg.fftSize / 2
      ∧ s.frequencies.getD 0 0 = 0
      ∧ (∀ k < cfg.fftSize / 2,
          s.frequencies.getD k 0 = (k : ℚ) * sig.sampleRate / (cfg.fftSize : ℚ))
      ∧ s.frequencies.Pairwise (· < ·)
      ∧ s.binWidth = sig.sampleRate / (cfg.fftSize : ℚ) := by
  obtain ⟨w, hw, hwlen⟩ := applyWindow_recognized
    (FFTProcessor.extractChunk sig.samples cfg.fftSize) cfg.windowType hrec
  have hps : FFTProcessor.processSignal ⟨cfg⟩ sig = .ok
      { frequencies := FFTProcessor.createFrequencyAxis cfg.fftSize sig.sampleRate,
        magnitudes := FFTProcessor.convertToDecibels
          (FFTProcessor.computeMagnitudes (FFTProcessor.computeFFT w)),
        binWidth := sig.sampleRate / (cfg.fftSize : ℚ) } := by
    unfold FFTProcessor.processSignal
    rw [hw]
    rfl
  have hFpos : (0 : ℚ) < (cfg.fftSize : ℚ) := by
    exact_mod_cast Nat.lt_of_lt_of_le (by norm_num) hF2
  refine ⟨_, hps, ?_, ?_, ?_, ?_, ?_, rfl⟩
  · simp [FFTProcessor.createFrequencyAxis]
  · rw [convertToDecibels_length, computeMagnitudes_length, computeFFT_length,
      hwlen, extractChunk_length]
    obtain ⟨m, hm⟩ := hEven
    rw [hm]
    unfold numBins
    omega
  · unfold FFTProcessor.createFrequencyAxis
    rw [getD_map_range _ (by omega : 0 < cfg.fftSize / 2)]
    simp
  · intro k hk
    unfold FFTProcessor.createFrequencyAxis
    rw [getD_map_range _ hk]
  · unfold FFTProcessor.createFrequencyAxis
    refine List.Pairwise.map _ ?_ (List.pairwise_lt_range _)
    intro a b hab
    have hq : (a : ℚ) * sig.sampleRate < (b : ℚ) * sig.sampleRate :=
      mul_lt_mul_of_pos_right (by exact_mod_cast hab) hr
    rw [div_lt_div_iff₀ hFpos hFpos]
    exact mul_lt_mul_of_pos_right hq hFpos

/-- Claim C1 witness at `fftSize = 4`, rectangular window, an empty signal
with sample rate 2. -/
theorem processSignal_spectrum_invariants_witness :
    ∃ s, FFTProcessor.processSignal ⟨⟨4, "rectangular", 0⟩⟩ ⟨[], 2, 0⟩ = .ok s
      ∧ s.frequencies.length = 4 / 2
      ∧ s.magnitudes.length = 4 / 2
      ∧ s.frequencies.getD 0 0 = 0
      ∧ (∀ k < 4 / 2, s.frequencies.getD k 0 = (k : ℚ) * 2 / (4 : ℕ))
      ∧ s.frequencies.Pairwise (· < ·)
      ∧ s.binWidth = 2 / ((4 : ℕ) : ℚ) :=
  processSignal_spectrum_invariants ⟨4, "rectangular", 0⟩ ⟨[], 2, 0⟩
    (Or.inl rfl) (by norm_num) ⟨2, rfl⟩ (by norm_num)

/-- Claim C1 (counterexample): `fftSize = 5` is a valid `DSPConfig` value
(a positive integer), yet `processSignal` returns a frequency axis of
length `2` and a magnitude sequence of length `3`: the two lengths differ,
so they are not both `fftSize / 2`. -/
theorem processSignal_odd_fftSize_mismatch :
    ∃ s, FFTProcessor.processSignal ⟨⟨5, "rectangular", 0⟩⟩ ⟨[], 8, 0⟩ = .ok s
      ∧ s.frequencies.length = 2 ∧ s.magnitudes.length = 3
      ∧ s.frequencies.length ≠ s.magnitudes.length := by
  obtain ⟨w, hw, hwlen⟩ := applyWindow_recognized
    (FFTProcessor.extractChunk ([] : List ℝ) 5) "rectangular" (Or.inl rfl)
  have hps : FFTProcessor.processSignal ⟨⟨5, "rectangular", 0⟩⟩ ⟨[], 8, 0⟩ = .ok
      { frequencies := FFTProcessor.createFrequencyAxis 5 8,
        magnitudes := FFTProcessor.convertToDecibels
          (FFTProcessor.computeMagnitudes (FFTProcessor.computeFFT w)),
        binWidth := 8 / ((5 : ℕ) : ℚ) } := by
    unfold FFTProcessor.processSignal
    rw [hw]
    rfl
  have hmag : (FFTProcessor.convertToDecibels (FFTProcessor.computeMagnitudes
      (FFTProcessor.computeFFT w))).length = 3 := by
    rw [convertToDecibels_length, computeMagnitudes_length, computeFFT_length,
      hwlen, extractChunk_length]
    rfl
  refine ⟨_, hps, ?_, hmag, ?_⟩
  · simp [FFTProcessor.createFrequencyAxis]
  · simp [FFTProcessor.createFrequencyAxis, hmag]

/-- Claim C8: every chirp sample `i` is `sin(2π · instFreq(t) · t)` with
`t = i / sampleRate` and
`instFreq(t) = startFreq + (endFreq − startFreq)·(t/duration)`; the
instantaneous-frequency formula evaluates to `startFreq` at `t = 0` and to
`endFreq` at `t = duration`, and concretely to `100` and `400` for
`createChirp(100, 400, 1.0, 44100)`. -/
theorem createChirp_formula_endpoints (startFreq endFreq duration sampleRate : ℚ)
    (i : ℕ) (hi : i < (⌊duration * sampleRate⌋).toNat) (hd : duration ≠ 0) :
    (SignalGenerator.createChirp startFreq endFreq duration
        sampleRate).samples.getD i 0
      = Real.sin (2 * π *
          (instantFreq startFreq endFreq duration ((i : ℚ) / sampleRate) : ℝ) *
          (((i : ℚ) / sampleRate : ℚ) : ℝ))
    ∧ instantFreq startFreq endFreq duration 0 = startFreq
    ∧ instantFreq startFreq endFreq duration duration = endFreq
    ∧ instantFreq 100 400 1 0 = 100
    ∧ instantFreq 100 400 1 1 = 400 := by
  refine ⟨?_, ?_, ?_, by norm_num [instantFreq], by norm_num [instantFreq]⟩
  · simp only [SignalGenerator.createChirp]
    rw [getD_map_range _ hi]
  · unfold instantFreq
    simp
  · unfold instantFreq
    rw [div_self hd]
    ring

/-- Claim C8 witness for `createChirp(100, 400, 1.0, 44100)` at sample 0. -/
theorem createChirp_formula_endpoints_witness :
    (SignalGenerator.createChirp 100 400 1 44100).samples.getD 0 0
      = Real.sin (2 * π *
          (instantFreq 100 400 1 (((0 : ℕ) : ℚ) / 44100) : ℝ) *
          ((((0 : ℕ) : ℚ) / 44100 : ℚ) : ℝ))
    ∧ instantFreq 100 400 1 0 = 100
    ∧ instantFreq 100 400 1 1 = 400
    ∧ instantFreq 100 400 1 0 = 100
    ∧ instantFreq 100 400 1 1 = 400 :=
  createChirp_formula_endpoints 100 400 1 44100 0 (by norm_num) (by norm_num)

/-- Claim C9 (amended): each multi-tone sample is the unnormalized
arithmetic sum over components of `amp[j] * sin(2π · freq[j] · t)` with
amplitudes matched to frequencies positionally, where — this is the
amendment the counterexample forces — the `|| 1` default applies to every
falsy lookup: a missing amplitude and a present amplitude equal to `0` both
default to `1.0`; every other supplied amplitude is used as given. -/
theorem createMultiTone_sum_formula (frequencies amplitudes : List ℚ)
    (duration sampleRate : ℚ) (i : ℕ)
    (hi : i < (⌊duration * sampleRate⌋).toNat) :
    (SignalGenerator.createMultiTone frequencies amplitudes duration
        sampleRate).samples.getD i 0
      = ∑ j in Finset.range frequencies.length,
          (SignalGenerator.ampOf amplitudes j : ℝ) *
            Real.sin (2 * π * (frequencies.getD j 0 : ℝ) *
              (((i : ℚ) / sampleRate : ℚ) : ℝ))
    ∧ (∀ j, amplitudes.length ≤ j → SignalGenerator.ampOf amplitudes j = 1)
    ∧ (∀ j, amplitudes.getD j 0 = 0 → SignalGenerator.ampOf amplitudes j = 1)
    ∧ (∀ j, amplitudes.getD j 0 ≠ 0 →
        SignalGenerator.ampOf amplitudes j = amplitudes.getD j 0) := by
  refine ⟨?_, ?_, ?_, ?_⟩
  · simp only [SignalGenerator.createMultiTone]
    rw [getD_map_range _ hi]
    rw [foldl_add_eq_sum (fun j => (SignalGenerator.ampOf amplitudes j : ℝ) *
      Real.sin (2 * π * (frequencies.getD j 0 : ℝ) *
        (((i : ℚ) / sampleRate : ℚ) : ℝ)))]
    simp
  · intro j hj
    unfold SignalGenerator.ampOf
    rw [if_pos]
    rw [List.getD_eq_getElem?_getD, List.getElem?_eq_none hj]
    rfl
  · intro j hj
    unfold SignalGenerator.ampOf
    rw [if_pos hj]
  · intro j hj
    unfold SignalGenerator.ampOf
    rw [if_neg hj]

/-- Claim C9 witness at frequencies `[1]`, no amplitudes, duration 1,
sample rate 2, sample 0. -/
theorem createMultiTone_sum_formula_witness :
    (SignalGenerator.createMultiTone [1] [] 1 2).samples.getD 0 0
      = ∑ j in Finset.range ([(1 : ℚ)].length),
          (SignalGenerator.ampOf [] j : ℝ) *
            Real.sin (2 * π * (([(1 : ℚ)].getD j 0 : ℝ)) *
              ((((0 : ℕ) : ℚ) / 2 : ℚ) : ℝ))
    ∧ (∀ j, ([] : List ℚ).length ≤ j → SignalGenerator.ampOf [] j = 1)
    ∧ (∀ j, ([] : List ℚ).getD j 0 = 0 → SignalGenerator.ampOf [] j = 1)
    ∧ (∀ j, ([] : List ℚ).getD j 0 ≠ 0 →
        SignalGenerator.ampOf [] j = ([] : List ℚ).getD j 0) :=
  createMultiTone_sum_formula [1] [] 1 2 0 (by norm_num)

/-- Claim C9 (counterexample): for `createMultiTone([1], [0], 1, 4)` at
sample 1 (`t = 1/4`), the specification's positional rule (`specAmpOf`,
only a missing amplitude defaults to 1) predicts the sample
`0 · sin(π/2) = 0`, but the code's `|| 1` also fires on the present
amplitude `0` and produces `1 · sin(π/2) = 1`. -/
theorem createMultiTone_zero_amplitude_cex :
    (SignalGenerator.createMultiTone [1] [0] 1 4).samples.getD 1 0 = 1
    ∧ ∑ j in Finset.range ([(1 : ℚ)].length),
        (specAmpOf [0] j : ℝ) *
          Real.sin (2 * π * (([(1 : ℚ)].getD j 0 : ℝ)) *
            ((((1 : ℕ) : ℚ) / 4 : ℚ) : ℝ))
      = 0
    ∧ (1 : ℝ) ≠ 0 := by
  refine ⟨?_, by simp [specAmpOf], by norm_num⟩
  simp only [SignalGenerator.createMultiTone]
  rw [getD_map_range _ (show (1 : ℕ) < (⌊(1 : ℚ) * 4⌋).toNat by norm_num)]
  have hr1 : List.range ([(1 : ℚ)].length) = [0] := rfl
  rw [hr1]
  simp only [List.foldl_cons, List.foldl_nil]
  have hamp : SignalGenerator.ampOf [0] 0 = 1 := rfl
  have hf : ([(1 : ℚ)].getD 0 0) = 1 := rfl
  rw [hamp, hf]
  have harg : 2 * π * ((1 : ℚ) : ℝ) * ((((1 : ℕ) : ℚ) / 4 : ℚ) : ℝ) = π / 2 := by
    push_cast
    ring
  rw [harg, Real.sin_pi_div_two]
  norm_num

/-- Claim C10: all four generator operations return a `TimeSignal` with
`floor(duration * sampleRate)` samples (for the interface's non-negative
duration and sample rate); when that count is 0 — zero duration or zero
sample rate — each returns an empty-but-valid `TimeSignal` (the sample
list is `[]`, the `sampleRate` and `duration` fields are still stamped),
and no generator has a failure path. -/
theorem generators_sample_count (frequency amplitude startFreq endFreq : ℚ)
    (frequencies amplitudes : List ℚ) (duration sampleRate : ℚ)
    (randomSource : ℕ → ℝ) (hd : 0 ≤ duration) (hr : 0 ≤ sampleRate) :
    (((SignalGenerator.createSineWave frequency amplitude duration
          sampleRate).samples.length : ℤ) = ⌊duration * sampleRate⌋
      ∧ ((SignalGenerator.createMultiTone frequencies amplitudes duration
          sampleRate).samples.length : ℤ) = ⌊duration * sampleRate⌋
      ∧ ((SignalGenerator.createWhiteNoise amplitude duration sampleRate
          randomSource).samples.length : ℤ) = ⌊duration * sampleRate⌋
      ∧ ((SignalGenerator.createChirp startFreq endFreq duration
          sampleRate).samples.length : ℤ) = ⌊duration * sampleRate⌋)
    ∧ (duration = 0 ∨ sampleRate = 0 →
        (SignalGenerator.createSineWave frequency amplitude duration
          sampleRate).samples = []
        ∧ (SignalGenerator.createMultiTone frequencies amplitudes duration
          sampleRate).samples = []
        ∧ (SignalGenerator.createWhiteNoise amplitude duration sampleRate
          randomSource).samples = []
        ∧ (SignalGenerator.createChirp startFreq endFreq duration
          sampleRate).samples = [])
    ∧ (SignalGenerator.createSineWave frequency amplitude duration
        sampleRate).sampleRate = sampleRate
    ∧ (SignalGenerator.createSineWave frequency amplitude duration
        sampleRate).duration = duration := by
  have hfl : (0 : ℤ) ≤ ⌊duration * sampleRate⌋ :=
    Int.floor_nonneg.mpr (mul_nonneg hd hr)
  refine ⟨⟨?_, ?_, ?_, ?_⟩, ?_, rfl, rfl⟩
  · simp only [SignalGenerator.createSineWave, List.length_map, List.length_range]
    exact Int.toNat_of_nonneg hfl
  · simp only [SignalGenerator.createMultiTone, List.length_map, List.length_range]
    exact Int.toNat_of_nonneg hfl
  · simp only [SignalGenerator.createWhiteNoise, List.length_map, List.length_range]
    exact Int.toNat_of_nonneg hfl
  · simp only [SignalGenerator.createChirp, List.length_map, List.length_range]
    exact Int.toNat_of_nonneg hfl
  · rintro (rfl | rfl) <;>
      simp [SignalGenerator.createSineWave, SignalGenerator.createMultiTone,
        SignalGenerator.createWhiteNoise, SignalGenerator.createChirp]

/-- Claim C10 witness at zero duration. -/
theorem generators_sample_count_witness :
    (((SignalGenerator.createSineWave 1 1 0 44100).samples.length : ℤ)
        = ⌊(0 : ℚ) * 44100⌋
      ∧ ((SignalGenerator.createMultiTone [1] [1] 0 44100).samples.length : ℤ)
        = ⌊(0 : ℚ) * 44100⌋
      ∧ ((SignalGenerator.createWhiteNoise 1 0 44100
          (fun _ => 0)).samples.length : ℤ) = ⌊(0 : ℚ) * 44100⌋
      ∧ ((SignalGenerator.createChirp 100 400 0 44100).samples.length : ℤ)
        = ⌊(0 : ℚ) * 44100⌋)
    ∧ ((0 : ℚ) = 0 ∨ (44100 : ℚ) = 0 →
        (SignalGenerator.createSineWave 1 1 0 44100).samples = []
        ∧ (SignalGenerator.createMultiTone [1] [1] 0 44100).samples = []
        ∧ (SignalGenerator.createWhiteNoise 1 0 44100 (fun _ => 0)).samples = []
        ∧ (SignalGenerator.createChirp 100 400 0 44100).samples = [])
    ∧ (SignalGenerator.createSineWave 1 1 0 44100).sampleRate = 44100
    ∧ (SignalGenerator.createSineWave 1 1 0 44100).duration = 0 :=
  generators_sample_count 1 1 100 400 [1] [1] 0 44100 (fun _ => 0)
    (by norm_num) (by norm_num)

/-- Claim C2 witness at the chunk `[1, 0]` and bin 0. -/
theorem computeFFT_dft_formulas_witness :
    ((FFTProcessor.computeFFT [1, 0]).getD 0 ⟨0, 0⟩).real
        = ∑ n in Finset.range ([(1 : ℝ), 0].length),
            [(1 : ℝ), 0].getD n 0 *
              Real.cos (-2 * π * ((0 : ℕ) : ℝ) * (n : ℝ) / (([(1 : ℝ), 0].length) : ℝ))
    ∧ ((FFTProcessor.computeFFT [1, 0]).getD 0 ⟨0, 0⟩).imag
        = ∑ n in Finset.range ([(1 : ℝ), 0].length),
            [(1 : ℝ), 0].getD n 0 *
              Real.sin (-2 * π * ((0 : ℕ) : ℝ) * (n : ℝ) / (([(1 : ℝ), 0].length) : ℝ))
    ∧ (FFTProcessor.computeMagnitudes (FFTProcessor.computeFFT [1, 0])).getD 0 0
        = Real.sqrt (((FFTProcessor.computeFFT [1, 0]).getD 0 ⟨0, 0⟩).real ^ 2
            + ((FFTProcessor.computeFFT [1, 0]).getD 0 ⟨0, 0⟩).imag ^ 2)
    ∧ (FFTProcessor.convertToDecibels
          (FFTProcessor.computeMagnitudes (FFTProcessor.computeFFT [1, 0]))).getD 0 0
        = 20 * Real.logb 10
            (max ((FFTProcessor.computeMagnitudes
              (FFTProcessor.computeFFT [1, 0])).getD 0 0) 1e-10) :=
  computeFFT_dft_formulas [1, 0] 0 (by norm_num [numBins])
